import Mathlib

/-!
Verification of the multi-agent highway driving environment
(`sdriving/environments/highway.py`) against its natural-language
specification.

All tensor operations in the source act elementwise along the agent axis,
so the per-step reward bookkeeping of
`MultiAgentHighwayBicycleKinematicsModel.get_reward` is embedded as a
per-agent function over exact rationals.  Machine floats are modelled by
`ℚ`; the claims under verification concern formula structure and boolean
bookkeeping, not rounding.
-/

/-- Per-agent persistent episode state mutated by `get_reward`
(`highway.py` attributes `completion_vector`, `collision_vector`, and the
agent's stored `destination`). -/
structure RState where
  completed : Bool
  collided : Bool
  destX : ℚ
  destY : ℚ
  deriving Repr, DecidableEq

/-- Per-agent external inputs to one `get_reward` call: the agent's current
position and speed (read from the vehicle), the elapsed-step counter
`self.nsteps` maintained by the base environment, and the incoming
per-agent collision signal (the `new_collisions` argument). -/
structure RInput where
  posX : ℚ
  posY : ℚ
  speed : ℚ
  nsteps : ℚ
  collisionSignal : Bool
  deriving Repr, DecidableEq

/-- The four summands of the returned reward of `get_reward`
(`highway.py` lines 173-178), plus the two "new event" indicators the body
computes (`new_collisions` after masking at line 163, and the goal-bonus
indicator `not_completed * reached_goal` at line 149).  `distTerm` is the
signed summand `-distances * ~collision_vector / horizon`, `speedPenalty`
the magnitude `(speeds / 8).abs() * completion_vector / horizon` that is
subtracted, `penalty` the collision penalty, `bonus` the goal bonus. -/
structure RParts where
  distTerm : ℚ
  speedPenalty : ℚ
  penalty : ℚ
  bonus : ℚ
  newCollision : Bool
  newGoal : Bool
  deriving Repr, DecidableEq

/-- One per-agent `get_reward` call
(`MultiAgentHighwayBicycleKinematicsModel.get_reward`, `highway.py`
lines 131-178), returning the reward summands and the updated persistent
state.  Translated line by line: signed distance `destination.x -
position.x`, goal test `distances <= 0.0`, pre-update `not_completed`,
goal bonus, `completion_vector += reached_goal`, destination rewrite
`position * completed + destination * ~completed`, normalization
`distances *= not_completed / original_distances`, collision masking
`~collision_vector * new_collisions`, the penalty, and
`collision_vector += new_collisions`. -/
def rewardUpdate (horizon origDist : ℚ) (inp : RInput) (s : RState) :
    RParts × RState :=
  let d0 := s.destX - inp.posX
  let reachedGoal : Bool := decide (d0 ≤ 0)
  let dabs := |d0|
  let notCompleted : Bool := !s.completed
  let bonus : ℚ := if notCompleted && reachedGoal then 1 else 0
  let completed : Bool := s.completed || reachedGoal
  let destX := if completed then inp.posX else s.destX
  let destY := if completed then inp.posY else s.destY
  let dist : ℚ := dabs * ((if notCompleted then (1 : ℚ) else 0) / origDist)
  let newColl : Bool := !s.collided && inp.collisionSignal
  let penalty : ℚ :=
    (if newColl then (1 : ℚ) else 0)
      + (if newColl then (1 : ℚ) else 0) * dist
        * (horizon - inp.nsteps - 1) / horizon
  let collided : Bool := s.collided || newColl
  (⟨-dist * (if collided then (0 : ℚ) else 1) / horizon,
    |inp.speed / 8| * (if completed then (1 : ℚ) else 0) / horizon,
    penalty, bonus, newColl, notCompleted && reachedGoal⟩,
   ⟨completed, collided, destX, destY⟩)

/-- The value returned by one per-agent `get_reward` call together with the
updated persistent state: the four summands assembled exactly as in the
`return` expression of `highway.py` lines 173-178. -/
def getReward (horizon origDist : ℚ) (inp : RInput) (s : RState) :
    ℚ × RState :=
  let r := rewardUpdate horizon origDist inp s
  (r.1.distTerm - r.1.speedPenalty - r.1.penalty + r.1.bonus, r.2)

/-- The reward formula exactly as the specification words it (spec section
4.2 and claim C1): `-normalized_distance * NOT collided / horizon -
|speed|/8 * completed / horizon - collision_penalty + goal_bonus`, with
`normalized_distance = remaining distance * NOT previously-completed /
original_distances`, `collision_penalty = new_collision * (1 +
normalized_distance * (horizon - nsteps - 1) / horizon)`,
`new_collision = incoming_collision AND NOT previously-collided`,
`goal_bonus = 1.0` for each newly reached agent, and the collided /
completed flags in the distance and speed terms being the post-update
flags. -/
def specReward (horizon origDist : ℚ) (inp : RInput) (s : RState) : ℚ :=
  let reached : Bool := decide (s.destX - inp.posX ≤ 0)
  let newGoal : Bool := !s.completed && reached
  let newCollision : Bool := inp.collisionSignal && !s.collided
  let completedPost : Bool := s.completed || reached
  let collidedPost : Bool := s.collided || newCollision
  let normalizedDistance : ℚ :=
    |s.destX - inp.posX| * (if s.completed then (0 : ℚ) else 1) / origDist
  let collisionPenalty : ℚ :=
    (if newCollision then (1 : ℚ) else 0)
      * (1 + normalizedDistance * (horizon - inp.nsteps - 1) / horizon)
  let goalBonus : ℚ := if newGoal then (1 : ℚ) else 0
  let total : ℚ :=
    -(normalizedDistance * (if collidedPost then (0 : ℚ) else 1)) / horizon
      - |inp.speed| / 8 * (if completedPost then (1 : ℚ) else 0) / horizon
      - collisionPenalty + goalBonus
  total

/-- C1: the per-agent reward returned by `get_reward` equals the
specification's formula: `-normalized_distance * NOT collided / horizon -
|speed|/8 * completed / horizon - collision_penalty + goal_bonus`, with
the normalized distance using the pre-update completion flag, the
collision penalty in the factored form `new_collision * (1 +
normalized_distance * (horizon - nsteps - 1) / horizon)`, a goal bonus of
exactly 1 for newly reached agents, and post-update flags in the distance
and speed terms. -/
theorem c1_reward_formula (horizon origDist : ℚ) (inp : RInput)
    (s : RState) :
    (getReward horizon origDist inp s).1 = specReward horizon origDist inp s := by
  cases hcm : s.completed <;> cases hcl : s.collided <;>
    cases hsg : inp.collisionSignal <;>
    by_cases hr : s.destX - inp.posX ≤ 0 <;>
    simp [getReward, rewardUpdate, specReward, hcm, hcl, hsg, hr,
      abs_div] <;>
    ring

/-- Iterated per-agent reward bookkeeping: fold `rewardUpdate` over a list
of per-step external inputs (position, speed, step counter, incoming
collision signal), threading the persistent flags and destination exactly
as consecutive `get_reward` calls do within one episode. -/
def runStates (horizon origDist : ℚ) : RState → List RInput → RState
  | s, [] => s
  | s, i :: rest =>
      runStates horizon origDist (rewardUpdate horizon origDist i s).2 rest

/-- The persistent per-agent state entering step `j` of an episode that
started in state `s0` and received the external inputs `inputs`. -/
def stateAt (horizon origDist : ℚ) (s0 : RState) (inputs : List RInput)
    (j : ℕ) : RState :=
  runStates horizon origDist s0 (inputs.take j)

/-- The reward summands produced at step `j` of an episode (junk values
past the end of the input list). -/
def partsAt (horizon origDist : ℚ) (s0 : RState) (inputs : List RInput)
    (j : ℕ) : RParts :=
  match inputs[j]? with
  | some i => (rewardUpdate horizon origDist i
      (stateAt horizon origDist s0 inputs j)).1
  | none => ⟨0, 0, 0, 0, false, false⟩

lemma runStates_append (horizon origDist : ℚ) (s : RState)
    (l1 l2 : List RInput) :
    runStates horizon origDist s (l1 ++ l2)
      = runStates horizon origDist (runStates horizon origDist s l1) l2 := by
  induction l1 generalizing s with
  | nil => rfl
  | cons a t ih => simp [runStates, ih]

lemma stateAt_succ_lt (horizon origDist : ℚ) (s0 : RState)
    (inputs : List RInput) {j : ℕ} (hj : j < inputs.length) :
    stateAt horizon origDist s0 inputs (j + 1)
      = (rewardUpdate horizon origDist (inputs.get ⟨j, hj⟩)
          (stateAt horizon origDist s0 inputs j)).2 := by
  unfold stateAt
  rw [List.take_succ, List.getElem?_eq_getElem hj, Option.toList_some,
    runStates_append]
  simp only [runStates, List.get_eq_getElem]

lemma stateAt_succ_ge (horizon origDist : ℚ) (s0 : RState)
    (inputs : List RInput) {j : ℕ} (hj : inputs.length ≤ j) :
    stateAt horizon origDist s0 inputs (j + 1)
      = stateAt horizon origDist s0 inputs j := by
  unfold stateAt
  rw [List.take_of_length_le hj, List.take_of_length_le (le_trans hj (Nat.le_succ j))]

lemma partsAt_eq (horizon origDist : ℚ) (s0 : RState)
    (inputs : List RInput) {j : ℕ} (hj : j < inputs.length) :
    partsAt horizon origDist s0 inputs j
      = (rewardUpdate horizon origDist (inputs.get ⟨j, hj⟩)
          (stateAt horizon origDist s0 inputs j)).1 := by
  simp [partsAt, List.getElem?_eq_getElem hj, List.get_eq_getElem]

lemma rewardUpdate_collided (horizon origDist : ℚ) (inp : RInput)
    (s : RState) :
    ((rewardUpdate horizon origDist inp s).2).collided
      = (s.collided || inp.collisionSignal) := by
  cases hs : s.collided <;> cases hb : inp.collisionSignal <;>
    simp [rewardUpdate, hs, hb]

lemma rewardUpdate_completed (horizon origDist : ℚ) (inp : RInput)
    (s : RState) :
    ((rewardUpdate horizon origDist inp s).2).completed
      = (s.completed || decide (s.destX - inp.posX ≤ 0)) := by
  simp [rewardUpdate]

lemma stateAt_collided_mono (horizon origDist : ℚ) (s0 : RState)
    (inputs : List RInput) {j j' : ℕ} (hjj : j ≤ j')
    (hc : (stateAt horizon origDist s0 inputs j).collided = true) :
    (stateAt horizon origDist s0 inputs j').collided = true := by
  induction j', hjj using Nat.le_induction with
  | base => exact hc
  | succ m hm ih =>
    by_cases hlen : m < inputs.length
    · rw [stateAt_succ_lt horizon origDist s0 inputs hlen,
        rewardUpdate_collided]
      simp [ih]
    · rw [stateAt_succ_ge horizon origDist s0 inputs (le_of_not_lt hlen)]
      exact ih

lemma stateAt_completed_mono (horizon origDist : ℚ) (s0 : RState)
    (inputs : List RInput) {j j' : ℕ} (hjj : j ≤ j')
    (hc : (stateAt horizon origDist s0 inputs j).completed = true) :
    (stateAt horizon origDist s0 inputs j').completed = true := by
  induction j', hjj using Nat.le_induction with
  | base => exact hc
  | succ m hm ih =>
    by_cases hlen : m < inputs.length
    · rw [stateAt_succ_lt horizon origDist s0 inputs hlen,
        rewardUpdate_completed]
      simp [ih]
    · rw [stateAt_succ_ge horizon origDist s0 inputs (le_of_not_lt hlen)]
      exact ih

lemma stateAt_collided_false (horizon origDist : ℚ) (s0 : RState)
    (inputs : List RInput) (hc0 : s0.collided = false) {k : ℕ}
    (hk : k ≤ inputs.length)
    (hbefore : ∀ j (hj : j < k),
      (inputs.get ⟨j, lt_of_lt_of_le hj hk⟩).collisionSignal = false) :
    ∀ j, j ≤ k → (stateAt horizon origDist s0 inputs j).collided = false := by
  intro j hj
  induction j with
  | zero => exact hc0
  | succ m ih =>
    have hmk : m < k := hj
    have hmlen : m < inputs.length := lt_of_lt_of_le hmk hk
    rw [stateAt_succ_lt horizon origDist s0 inputs hmlen,
      rewardUpdate_collided]
    have hb := hbefore m hmk
    rw [List.get_eq_getElem] at hb
    simp [ih (le_of_lt hmk), hb]

lemma penalty_zero_of_collided (horizon origDist : ℚ) (inp : RInput)
    (s : RState) (h1 : s.collided = true) :
    (rewardUpdate horizon origDist inp s).1.penalty = 0 := by
  simp [rewardUpdate, h1]

lemma penalty_zero_of_no_signal (horizon origDist : ℚ) (inp : RInput)
    (s : RState) (h1 : inp.collisionSignal = false) :
    (rewardUpdate horizon origDist inp s).1.penalty = 0 := by
  simp [rewardUpdate, h1]

lemma distTerm_zero_of_signal_or_collided (horizon origDist : ℚ)
    (inp : RInput) (s : RState)
    (h1 : (s.collided || inp.collisionSignal) = true) :
    (rewardUpdate horizon origDist inp s).1.distTerm = 0 := by
  cases hs : s.collided <;> cases hb : inp.collisionSignal
  · simp [hs, hb] at h1
  all_goals simp [rewardUpdate, hs, hb]

lemma distTerm_zero_of_completed (horizon origDist : ℚ) (inp : RInput)
    (s : RState) (h1 : s.completed = true) :
    (rewardUpdate horizon origDist inp s).1.distTerm = 0 := by
  simp [rewardUpdate, h1]

lemma dest_tracks_position (horizon origDist : ℚ) (inp : RInput)
    (s : RState) (h1 : s.completed = true) :
    ((rewardUpdate horizon origDist inp s).2).destX = inp.posX
      ∧ ((rewardUpdate horizon origDist inp s).2).destY = inp.posY := by
  simp [rewardUpdate, h1]

lemma penalty_ge_one (horizon origDist : ℚ) (inp : RInput) (s : RState)
    (hcol : s.collided = false) (hsig : inp.collisionSignal = true)
    (hh : 0 < horizon) (hod : 0 < origDist)
    (hn : inp.nsteps + 1 ≤ horizon) :
    1 ≤ (rewardUpdate horizon origDist inp s).1.penalty := by
  have hstep : (0:ℚ) ≤ horizon - inp.nsteps - 1 := by linarith
  cases hcm : s.completed <;>
    simp [rewardUpdate, hcol, hsig, hcm]
  have h1 : (0:ℚ) ≤ |s.destX - inp.posX| * origDist⁻¹ :=
    mul_nonneg (abs_nonneg _) (by positivity)
  have h2 : (0:ℚ) ≤ |s.destX - inp.posX| * origDist⁻¹
      * (horizon - inp.nsteps - 1) / horizon :=
    div_nonneg (mul_nonneg h1 hstep) hh.le
  linarith [h2]

/-- C2: for an agent whose incoming collision signal first becomes true at
step `k`, the collision penalty is nonzero only at step `k` (and is at
least 1 there, under the in-episode side conditions `0 < horizon`,
`0 < original_distances`, `nsteps + 1 ≤ horizon`), and the distance-reward
term `-distances * ~collision_vector / horizon` is zero at every step
`≥ k`.  The `collision_vector` is all-false at episode start (spec
section 3), which is the hypothesis on `s0`. -/
theorem c2_single_collision_charge (horizon origDist : ℚ) (s0 : RState)
    (inputs : List RInput) (k : ℕ) (hk : k < inputs.length)
    (hc0 : s0.collided = false)
    (hbefore : ∀ j (hj : j < k),
      (inputs.get ⟨j, lt_trans hj hk⟩).collisionSignal = false)
    (hsig : (inputs.get ⟨k, hk⟩).collisionSignal = true) :
    (∀ j, j < inputs.length → j ≠ k →
      (partsAt horizon origDist s0 inputs j).penalty = 0) ∧
    (∀ j, k ≤ j → j < inputs.length →
      (partsAt horizon origDist s0 inputs j).distTerm = 0) ∧
    (0 < horizon → 0 < origDist →
      (inputs.get ⟨k, hk⟩).nsteps + 1 ≤ horizon →
      1 ≤ (partsAt horizon origDist s0 inputs k).penalty) := by
  have hfalse := stateAt_collided_false horizon origDist s0 inputs hc0
    (le_of_lt hk) hbefore
  have hcolk : (stateAt horizon origDist s0 inputs (k + 1)).collided = true := by
    rw [stateAt_succ_lt horizon origDist s0 inputs hk, rewardUpdate_collided,
      hsig, Bool.or_true]
  refine ⟨?_, ?_, ?_⟩
  · intro j hj hjk
    rcases lt_or_gt_of_ne hjk with hlt | hgt
    · rw [partsAt_eq horizon origDist s0 inputs hj]
      exact penalty_zero_of_no_signal horizon origDist _ _ (hbefore j hlt)
    · rw [partsAt_eq horizon origDist s0 inputs hj]
      exact penalty_zero_of_collided horizon origDist _ _
        (stateAt_collided_mono horizon origDist s0 inputs hgt hcolk)
  · intro j hkj hj
    rcases eq_or_lt_of_le hkj with rfl | hlt
    · rw [partsAt_eq horizon origDist s0 inputs hj]
      apply distTerm_zero_of_signal_or_collided
      have hs' : (inputs.get ⟨k, hj⟩).collisionSignal = true := hsig
      rw [hs', Bool.or_true]
    · rw [partsAt_eq horizon origDist s0 inputs hj]
      apply distTerm_zero_of_signal_or_collided
      have hc' := stateAt_collided_mono horizon origDist s0 inputs hlt hcolk
      rw [hc', Bool.true_or]
  · intro hh hod hn
    rw [partsAt_eq horizon origDist s0 inputs hk]
    exact penalty_ge_one horizon origDist _ _ (hfalse k le_rfl) hsig hh hod hn

/-- Concrete three-step episode for exercising the collision bookkeeping:
no signal, then the first collision signal at step 1, then no signal. -/
def c2S0 : RState := ⟨false, false, 100, 0⟩

/-- Inputs for the concrete collision episode: positions 0, 1, 2; the
collision signal first becomes true at step 1. -/
def c2Inputs : List RInput :=
  [⟨0, 0, 1, 0, false⟩, ⟨1, 0, 1, 1, true⟩, ⟨2, 0, 1, 2, false⟩]

theorem c2_single_collision_charge_witness :
    (partsAt 10 150 c2S0 c2Inputs 0).penalty = 0 ∧
    (partsAt 10 150 c2S0 c2Inputs 2).distTerm = 0 ∧
    1 ≤ (partsAt 10 150 c2S0 c2Inputs 1).penalty := by
  have hk : (1 : ℕ) < c2Inputs.length := by simp [c2Inputs]
  have hb : ∀ j (hj : j < 1),
      (c2Inputs.get ⟨j, lt_trans hj hk⟩).collisionSignal = false := by
    intro j hj
    have hj0 : j = 0 := by omega
    subst hj0
    rfl
  have hsg : (c2Inputs.get ⟨1, hk⟩).collisionSignal = true := rfl
  have hn : (c2Inputs.get ⟨1, hk⟩).nsteps + 1 ≤ 10 := by
    show (1 : ℚ) + 1 ≤ 10
    norm_num
  have h := c2_single_collision_charge 10 150 c2S0 c2Inputs 1 hk rfl hb hsg
  exact ⟨h.1 0 (by simp [c2Inputs]) (by omega),
    h.2.1 2 (by omega) (by simp [c2Inputs]),
    h.2.2 (by norm_num) (by norm_num) hn⟩

/-- Concrete two-step episode refuting the destination-freeze claim: the
agent starts with destination x = 3, is at x = 5 on the first call
(already past the goal, so it completes and the destination is written to
(5, 0)), then moves to (7, 1); the second call rewrites the stored
destination to (7, 1), so the destination is not frozen. -/
def c3S0 : RState := ⟨false, false, 3, 0⟩

/-- Inputs for the destination-freeze counterexample episode. -/
def c3Inputs : List RInput := [⟨5, 0, 0, 0, false⟩, ⟨7, 1, 0, 1, false⟩]

/-- C3 counterexample: the agent completes at step 0 with its destination
written to its position x = 5, yet the next `get_reward` call changes the
stored destination to x = 7 — the destination is not frozen at the
position where the agent completed. -/
theorem c3_counterexample :
    (stateAt 10 1 c3S0 c3Inputs 1).completed = true ∧
    (stateAt 10 1 c3S0 c3Inputs 1).destX = 5 ∧
    (stateAt 10 1 c3S0 c3Inputs 2).destX = 7 := by
  norm_num [stateAt, runStates, rewardUpdate, c3S0, c3Inputs]

/-- C3 (amended): once `completed[i]` is true, every subsequent
`get_reward` call rewrites `destination[i]` to the agent's position at
that call (the destination tracks the current position rather than being
frozen), and the distance-reward contribution is 0 for the rest of the
episode. -/
theorem c3_destination_tracks (horizon origDist : ℚ) (s0 : RState)
    (inputs : List RInput) (k j : ℕ)
    (hcomp : (stateAt horizon origDist s0 inputs k).completed = true)
    (hkj : k ≤ j) (hj : j < inputs.length) :
    (partsAt horizon origDist s0 inputs j).distTerm = 0 ∧
    (stateAt horizon origDist s0 inputs (j + 1)).destX
      = (inputs.get ⟨j, hj⟩).posX ∧
    (stateAt horizon origDist s0 inputs (j + 1)).destY
      = (inputs.get ⟨j, hj⟩).posY := by
  have hcj : (stateAt horizon origDist s0 inputs j).completed = true :=
    stateAt_completed_mono horizon origDist s0 inputs hkj hcomp
  refine ⟨?_, ?_, ?_⟩
  · rw [partsAt_eq horizon origDist s0 inputs hj]
    exact distTerm_zero_of_completed horizon origDist _ _ hcj
  · rw [stateAt_succ_lt horizon origDist s0 inputs hj]
    exact (dest_tracks_position horizon origDist _ _ hcj).1
  · rw [stateAt_succ_lt horizon origDist s0 inputs hj]
    exact (dest_tracks_position horizon origDist _ _ hcj).2

theorem c3_destination_tracks_witness :
    (partsAt 10 1 c3S0 c3Inputs 1).distTerm = 0 ∧
    (stateAt 10 1 c3S0 c3Inputs 2).destX
      = (c3Inputs.get ⟨1, by decide⟩).posX ∧
    (stateAt 10 1 c3S0 c3Inputs 2).destY
      = (c3Inputs.get ⟨1, by decide⟩).posY :=
  c3_destination_tracks 10 1 c3S0 c3Inputs 1 1
    (by norm_num [stateAt, runStates, rewardUpdate, c3S0, c3Inputs])
    le_rfl (by decide)

/-- C5: `collided` and `completed` are monotone non-decreasing over the
episode (once true at step `j` they are true at every later step `j'`),
and the reward-relevant "new event" indicators computed by `get_reward`
are exactly `incoming_signal AND NOT previous_flag`: the masked
`new_collisions` equals the incoming signal AND NOT the previous
`collision_vector`, and the goal-bonus indicator equals the reached-goal
test AND NOT the previous `completion_vector`. -/
theorem c5_monotone_flags (horizon origDist : ℚ) (s0 : RState)
    (inputs : List RInput) :
    (∀ j j', j ≤ j' →
      ((stateAt horizon origDist s0 inputs j).collided = true →
        (stateAt horizon origDist s0 inputs j').collided = true) ∧
      ((stateAt horizon origDist s0 inputs j).completed = true →
        (stateAt horizon origDist s0 inputs j').completed = true)) ∧
    (∀ j (hj : j < inputs.length),
      (partsAt horizon origDist s0 inputs j).newCollision
        = ((inputs.get ⟨j, hj⟩).collisionSignal &&
            !(stateAt horizon origDist s0 inputs j).collided) ∧
      (partsAt horizon origDist s0 inputs j).newGoal
        = (decide ((stateAt horizon origDist s0 inputs j).destX
              - (inputs.get ⟨j, hj⟩).posX ≤ 0) &&
            !(stateAt horizon origDist s0 inputs j).completed)) := by
  constructor
  · intro j j' hjj
    exact ⟨stateAt_collided_mono horizon origDist s0 inputs hjj,
      stateAt_completed_mono horizon origDist s0 inputs hjj⟩
  · intro j hj
    rw [partsAt_eq horizon origDist s0 inputs hj]
    constructor
    · simp [rewardUpdate, Bool.and_comm]
    · simp [rewardUpdate, Bool.and_comm]

theorem c5_monotone_flags_witness :
    ((stateAt 10 150 c2S0 c2Inputs 1).collided = true →
      (stateAt 10 150 c2S0 c2Inputs 3).collided = true) ∧
    (partsAt 10 150 c2S0 c2Inputs 1).newCollision
      = ((c2Inputs.get ⟨1, by decide⟩).collisionSignal &&
          !(stateAt 10 150 c2S0 c2Inputs 1).collided) := by
  have h := c5_monotone_flags 10 150 c2S0 c2Inputs
  exact ⟨(h.1 1 3 (by decide)).1, (h.2 1 (by decide)).1⟩

/-- The active kinematics binding (`self.dynamics`): either the
`BicycleKinematicsModel(dim, v_lim)` stored at episode start
(`store_dynamics`, `highway.py` lines 221-225) or the `SplineModel(path,
v_lim)` bound by a stage-0 spline step (lines 389-391).  Both carry the
per-agent velocity-limit vector passed as `v_lim`. -/
inductive Dynamics where
  | bicycle (dim : List ℚ) (vLimit : List ℚ)
  | spline (path : List (List (ℚ × ℚ))) (vLimit : List ℚ)
  deriving Repr, DecidableEq

/-- The per-agent velocity limit `v_lim` exposed by the active binding. -/
def Dynamics.vLim : Dynamics → List ℚ
  | .bicycle _ v => v
  | .spline _ v => v

/-- One agent's kinematic quantities read by `get_state` / `get_reward`:
position, stored destination and speed. -/
structure Agent where
  posX : ℚ
  posY : ℚ
  destX : ℚ
  destY : ℚ
  speed : ℚ
  deriving Repr, DecidableEq

/-- The environment state of
`MultiAgentHighwayBicycleKinematicsModel` (and its spline subclass)
relevant to observation building, dynamics binding and the two-stage
protocol: road geometry constants, the ratings drawn at reset, the
agents, the active dynamics binding, the elapsed-step counter, the
history parameters, the two history queues (each entry one whole-batch
observation, a list of per-agent feature rows), the spline first-read
flag `got_spline_state`, and `lidar_noise`. -/
structure HighwayEnv where
  length : ℚ
  width : ℚ
  maxVelocity : ℚ
  maxAccln : ℚ
  velRating : List ℚ
  acclnRating : List ℚ
  agents : List Agent
  dynamics : Dynamics
  nsteps : ℕ
  historyLen : ℕ
  npoints : ℕ
  queue1 : List (List (List ℚ))
  queue2 : List (List (List ℚ))
  gotSplineState : Bool
  lidarNoise : ℚ
  deriving Repr, DecidableEq

/-- `collections.deque(maxlen = H).append`: appends on the right, evicting
the leftmost entry when the queue already holds `H` entries. -/
def dequeAppend {α : Type} (H : ℕ) (q : List α) (x : α) : List α :=
  if q.length = H then q.tail ++ [x] else q ++ [x]

/-- The `while len(queue) <= history_len - 1: queue.append(obs)` filling
loop of `get_state` (`highway.py` lines 118-120): appends the first real
observation until the queue holds `H` entries (no eviction occurs while
the queue is below capacity). -/
def fillQueue {α : Type} (H : ℕ) (q : List α) (x : α) : List α :=
  q ++ List.replicate (H - q.length) x

/-- The whole queue interaction of one `get_state` call for `H > 1`
(`highway.py` lines 117-122): run the filling loop, then one more
append (with eviction at capacity). -/
def pushObs {α : Type} (H : ℕ) (q : List α) (x : α) : List α :=
  dequeAppend H (fillQueue H q x) x

/-- Reading the history for agent `i`: `torch.cat(list(queue), dim = -1)`
concatenates, per agent row, the queue entries oldest first. -/
def histRead (q : List (List (List ℚ))) (i : ℕ) : List ℚ :=
  (q.map fun en => en.getD i []).flatten

/-- The per-agent raw state feature row built by `get_state`
(`highway.py` lines 94-111): inverse clamped distance-to-destination
`1 / dist.clamp(min = 1.0)`, speed normalized by the agent's velocity
limit `dynamics.v_lim`, the acceleration rating, the velocity rating. -/
def obsRow4 (a : Agent) (vLimit accln vel : ℚ) : List ℚ :=
  [1 / max |a.destX - a.posX| 1, a.speed / vLimit, accln, vel]

/-- Lidar post-processing of `get_state` (`highway.py` lines 112-115):
reciprocal of the raw per-ray distances, then, when `lidar_noise > 0`,
multiplication by the externally drawn Bernoulli keep-mask
`rand_like(lidar) > lidar_noise`. -/
def lidarProc (lidarNoise : ℚ) (raw : List (List ℚ))
    (mask : List (List Bool)) : List (List ℚ) :=
  let l := raw.map (List.map fun d => 1 / d)
  if 0 < lidarNoise then
    List.zipWith (fun row mrow =>
      List.zipWith (fun x b => if b then x else 0) row mrow) l mask
  else l

/-- `MultiAgentHighwayBicycleKinematicsModel.get_state` (`highway.py`
lines 91-129): build the per-agent feature rows and processed lidar rows,
then for `history_len > 1` push both through their history queues and
return, per agent, the concatenated history (oldest first); for
`history_len = 1` return the raw rows.  The raw lidar scan and the noise
mask are external inputs from the world collaborator. -/
def bicycleGetState (e : HighwayEnv) (raw : List (List ℚ))
    (mask : List (List Bool)) :
    HighwayEnv × (List (List ℚ) × List (List ℚ)) :=
  let rows := List.zipWith (fun (a : Agent) (t : ℚ × ℚ × ℚ) =>
    obsRow4 a t.1 t.2.1 t.2.2) e.agents
    (e.dynamics.vLim.zip (e.acclnRating.zip e.velRating))
  let lid := lidarProc e.lidarNoise raw mask
  if 1 < e.historyLen then
    let q1 := pushObs e.historyLen e.queue1 rows
    let q2 := pushObs e.historyLen e.queue2 lid
    ({ e with queue1 := q1, queue2 := q2 },
      ((List.range e.agents.length).map (histRead q1),
       (List.range e.agents.length).map (histRead q2)))
  else (e, (rows, lid))

/-- The queue reinitialization performed by `reset` (`highway.py` lines
235-236): both history queues become fresh empty deques. -/
def resetHistory (e : HighwayEnv) : HighwayEnv :=
  { e with queue1 := [], queue2 := [] }

lemma fillQueue_length {α : Type} (H : ℕ) (q : List α) (x : α)
    (h : q.length ≤ H) : (fillQueue H q x).length = H := by
  simp only [fillQueue, List.length_append, List.length_replicate]
  omega

lemma pushObs_empty {α : Type} (H : ℕ) (hH : 1 ≤ H) (x : α) :
    pushObs H ([] : List α) x = List.replicate H x := by
  obtain ⟨n, rfl⟩ : ∃ n, H = n + 1 := ⟨H - 1, by omega⟩
  rw [pushObs, fillQueue]
  simp only [List.nil_append, List.length_nil, Nat.sub_zero]
  rw [dequeAppend, if_pos (List.length_replicate _ _)]
  rw [show List.replicate (n + 1) x = x :: List.replicate n x from
    List.replicate_succ x n]
  simp only [List.tail_cons]
  exact (List.replicate_succ' n x).symm

lemma pushObs_full {α : Type} (H : ℕ) (q : List α) (x : α)
    (h : q.length = H) : pushObs H q x = q.tail ++ [x] := by
  rw [pushObs, fillQueue, h, Nat.sub_self]
  simp only [List.replicate_zero, List.append_nil]
  rw [dequeAppend, if_pos h]

lemma pushObs_length {α : Type} (H : ℕ) (hH : 1 ≤ H) (q : List α) (x : α)
    (h : q.length ≤ H) : (pushObs H q x).length = H := by
  rw [pushObs, dequeAppend, if_pos (fillQueue_length H q x h)]
  have := fillQueue_length H q x h
  simp only [List.length_append, List.length_tail, this,
    List.length_singleton]
  omega

lemma pushObs_mem {α : Type} (H : ℕ) (q : List α) (x : α) (y : α)
    (hy : y ∈ pushObs H q x) : y ∈ q ∨ y = x := by
  have hfill : ∀ z, z ∈ fillQueue H q x → z ∈ q ∨ z = x := by
    intro z hz
    rcases List.mem_append.mp hz with h1 | h1
    · exact Or.inl h1
    · exact Or.inr (List.eq_of_mem_replicate h1)
  rw [pushObs, dequeAppend] at hy
  split at hy <;> rcases List.mem_append.mp hy with h1 | h1
  · exact hfill y (List.mem_of_mem_tail h1)
  · exact Or.inr (List.mem_singleton.mp h1)
  · exact hfill y h1
  · exact Or.inr (List.mem_singleton.mp h1)

lemma histRead_length (q : List (List (List ℚ))) (i s : ℕ)
    (h : ∀ en ∈ q, (en.getD i []).length = s) :
    (histRead q i).length = q.length * s := by
  rw [histRead, List.length_flatten, List.map_map]
  have hrep : q.map (List.length ∘ fun en => en.getD i [])
      = List.replicate q.length s := by
    refine List.eq_replicate_iff.mpr ⟨List.length_map _ _, ?_⟩
    intro b hb
    rcases List.mem_map.mp hb with ⟨en, hen, rfl⟩
    exact h en hen
  rw [hrep, List.sum_replicate, smul_eq_mul]

lemma lidarProc_length (noise : ℚ) (raw : List (List ℚ))
    (mask : List (List Bool)) (n i : ℕ)
    (hraw : ∀ r ∈ raw, r.length = n) (hmask : ∀ m ∈ mask, m.length = n)
    (hi : i < (lidarProc noise raw mask).length) :
    ((lidarProc noise raw mask).get ⟨i, hi⟩).length = n := by
  rw [List.get_eq_getElem]
  simp only [lidarProc] at hi ⊢
  split at hi
  · next h =>
    simp only [if_pos h]
    rw [List.getElem_zipWith]
    rw [List.length_zipWith] at hi
    have hi2 : i < mask.length := lt_of_lt_of_le hi (Nat.min_le_right _ _)
    rw [List.length_zipWith, List.getElem_map, List.length_map]
    rw [hraw _ (List.getElem_mem _), hmask _ (List.getElem_mem _)]
    exact Nat.min_self n
  · next h =>
    simp only [if_neg h]
    rw [List.getElem_map, List.length_map]
    exact hraw _ (List.getElem_mem _)

/-- C7: for history length `H > 1` the history queues start empty at
reset; the first `get_state` call from an empty queue fills it by
replicating the first real observation into exactly `H` entries; a call
on a full queue appends the newest observation and evicts the oldest
(strict FIFO); the queue length is invariantly `H` after any call from a
queue of length at most `H` (so after the first read it is always exactly
`H`); the per-agent concatenated history read has constant length `H * s`
when every entry's row for the agent has `s` features (`s = 4` state
features, `s = npoints` lidar rays); and at the environment level one
`get_state` call leaves both queues with exactly `H` entries. -/
theorem c7_history_queue (H : ℕ) (hH : 1 < H) :
    (∀ e : HighwayEnv,
      (resetHistory e).queue1 = [] ∧ (resetHistory e).queue2 = []) ∧
    (∀ x : List (List ℚ),
      pushObs H ([] : List (List (List ℚ))) x = List.replicate H x) ∧
    (∀ (q : List (List (List ℚ))) (x : List (List ℚ)), q.length = H →
      pushObs H q x = q.tail ++ [x]) ∧
    (∀ (q : List (List (List ℚ))) (x : List (List ℚ)), q.length ≤ H →
      (pushObs H q x).length = H) ∧
    (∀ (q : List (List (List ℚ))) (x : List (List ℚ)) (i s : ℕ),
      q.length ≤ H → (∀ en ∈ q, (en.getD i []).length = s) →
      (x.getD i []).length = s →
      (histRead (pushObs H q x) i).length = H * s) ∧
    (∀ (a : Agent) (vLimit accln vel : ℚ),
      (obsRow4 a vLimit accln vel).length = 4) ∧
    (∀ (e : HighwayEnv) (raw : List (List ℚ)) (mask : List (List Bool)),
      e.historyLen = H → e.queue1.length ≤ H → e.queue2.length ≤ H →
      (bicycleGetState e raw mask).1.queue1.length = H ∧
      (bicycleGetState e raw mask).1.queue2.length = H) ∧
    (∀ (noise : ℚ) (raw : List (List ℚ)) (mask : List (List Bool))
      (n i : ℕ), (∀ r ∈ raw, r.length = n) → (∀ m ∈ mask, m.length = n) →
      ∀ hi : i < (lidarProc noise raw mask).length,
      ((lidarProc noise raw mask).get ⟨i, hi⟩).length = n) := by
  have hH1 : 1 ≤ H := le_of_lt hH
  refine ⟨fun e => ⟨rfl, rfl⟩, fun x => pushObs_empty H hH1 x,
    fun q x h => pushObs_full H q x h,
    fun q x h => pushObs_length H hH1 q x h, ?_, fun a v ac ve => rfl, ?_,
    fun noise raw mask n i h1 h2 hi =>
      lidarProc_length noise raw mask n i h1 h2 hi⟩
  · intro q x i s hq hall hx
    have hmem : ∀ en ∈ pushObs H q x, (en.getD i []).length = s := by
      intro en hen
      rcases pushObs_mem H q x en hen with h1 | rfl
      · exact hall en h1
      · exact hx
    rw [histRead_length (pushObs H q x) i s hmem,
      pushObs_length H hH1 q x hq]
  · intro e raw mask hlen h1 h2
    have hgt : 1 < e.historyLen := by rw [hlen]; exact hH
    rw [bicycleGetState]
    simp only [if_pos hgt]
    constructor
    · exact hlen ▸ pushObs_length e.historyLen (le_of_lt hgt) e.queue1 _
        (hlen ▸ h1)
    · exact hlen ▸ pushObs_length e.historyLen (le_of_lt hgt) e.queue2 _
        (hlen ▸ h2)

theorem c7_history_queue_witness :
    pushObs 2 ([] : List (List (List ℚ))) [[1, 2, 3, 4]]
      = List.replicate 2 [[1, 2, 3, 4]] :=
  (c7_history_queue 2 (by omega)).2.1 [[1, 2, 3, 4]]

/-- The raw per-agent state feature list exactly as the specification
words it (spec section 4.1 and claim C8): inverse clamped
distance-to-destination `1 / max(distance, 1.0)`, speed divided by the
agent's current velocity limit, the acceleration rating, the velocity
rating. -/
def specStateFeatures (distance speed vLimit accln vel : ℚ) : List ℚ :=
  [1 / max distance 1, speed / vLimit, accln, vel]

/-- C8: the per-agent raw state feature row built by `get_state` is, in
order, inverse clamped distance `1 / max(|dest.x - pos.x|, 1)`, speed
over the velocity limit, acceleration rating, velocity rating; and the
clamp bounds the denominator below by 1, so it is nonzero for every input
distance (including zero) and the feature computation is total. -/
theorem c8_state_features (a : Agent) (vLimit accln vel : ℚ) :
    obsRow4 a vLimit accln vel
      = specStateFeatures |a.destX - a.posX| a.speed vLimit accln vel ∧
    (1 : ℚ) ≤ max |a.destX - a.posX| 1 ∧
    max |a.destX - a.posX| 1 ≠ 0 := by
  refine ⟨rfl, le_max_right _ _, ?_⟩
  have h1 : (1 : ℚ) ≤ max |a.destX - a.posX| 1 := le_max_right _ _
  intro h
  rw [h] at h1
  norm_num at h1

/-- The heterogeneity ratings drawn in `add_vehicles_to_world`
(`highway.py` lines 212-213): `accln_rating = (torch.rand(n, 1) + 1) *
0.5` from the externally drawn uniform sample, and `vel_rating =
self.accln_rating` — the very same tensor, not a second draw.  Returns
`(accln_rating, vel_rating)`. -/
def mkRatings (rand : List ℚ) : List ℚ × List ℚ :=
  let accln := rand.map fun r => (r + 1) * (1 / 2)
  (accln, accln)

/-- C9: at every reset the velocity rating is assigned the acceleration
rating itself, so the two factors are identical (a single draw, not two
independent ones), and each entry lies in `[0.5, 1)` whenever the raw
uniform sample lies in `[0, 1)`. -/
theorem c9_ratings_aliased (rand : List ℚ)
    (h : ∀ r ∈ rand, 0 ≤ r ∧ r < 1) :
    (mkRatings rand).2 = (mkRatings rand).1 ∧
    ∀ y ∈ (mkRatings rand).1, 1 / 2 ≤ y ∧ y < 1 := by
  refine ⟨rfl, ?_⟩
  intro y hy
  rcases List.mem_map.mp hy with ⟨r, hr, rfl⟩
  rcases h r hr with ⟨h0, h1⟩
  constructor <;> nlinarith

theorem c9_ratings_aliased_witness :
    (mkRatings [0, 1 / 2]).2 = (mkRatings [0, 1 / 2]).1 ∧
    ∀ y ∈ (mkRatings [0, 1 / 2]).1, 1 / 2 ≤ y ∧ y < 1 := by
  apply c9_ratings_aliased
  intro r hr
  rcases List.mem_cons.mp hr with rfl | hr2
  · norm_num
  rcases List.mem_cons.mp hr2 with rfl | hr3
  · norm_num
  · simp at hr3

/-- `store_dynamics` (`highway.py` lines 221-225): binds a
`BicycleKinematicsModel` with the vehicle dimensions and per-agent
velocity limit `vel_rating * max_velocity` as the active dynamics. -/
def storeDynamics (e : HighwayEnv) (dims : List ℚ) : HighwayEnv :=
  { e with dynamics := (Dynamics.bicycle dims
      (e.velRating.map fun v => v * e.maxVelocity)) }

lemma storeDynamics_dynamics (e : HighwayEnv) (dims : List ℚ) :
    (storeDynamics e dims).dynamics
      = Dynamics.bicycle dims (e.velRating.map fun v => v * e.maxVelocity) :=
  rfl

/-- `discrete_to_continuous_actions_v2` (`highway.py` lines 314-315): the
identity on the stage-0 offset action. -/
def discreteToContinuousActionsV2 (action : List ℚ) : List ℚ := action

/-- One agent's 4-point spline path as built by the stage-0 branch of
`MultiAgentHighwaySplineAccelerationDiscreteModel.step` (`highway.py`
lines 369-387), stacked in order: current position; midpoint
`(x + 50, y + offset * width / 2)`; endpoint `(length / 2, same y as the
midpoint)`; far-field anchor `(-length / 2, a0Y)` where `a0Y` is agent
index 0's current y-coordinate (`pos[0, 1]`), shared by every agent. -/
def pathRow (length width a0Y : ℚ) (p : ℚ × ℚ) (offset : ℚ) :
    List (ℚ × ℚ) :=
  [p, (p.1 + 50, p.2 + offset * width / 2),
   (length / 2, p.2 + offset * width / 2), (-(length / 2), a0Y)]

/-- The whole-batch 4-point path of the stage-0 branch: one `pathRow` per
agent, each using the agent's own position and offset but the shared
far-field y-coordinate `a0Y`. -/
def stage0PathOf (length width a0Y : ℚ) (agents : List Agent)
    (offsets : List ℚ) : List (List (ℚ × ℚ)) :=
  (agents.zip offsets).map fun po =>
    pathRow length width a0Y (po.1.posX, po.1.posY) po.2

/-- The observation returned by the spline variant's `get_state`
(`highway.py` lines 317-351): the acceleration ratings on the first read
of an episode (`got_spline_state` branch), otherwise the history-stacked
per-agent state and lidar rows. -/
inductive SplineObs where
  | ratings (r : List ℚ)
  | regular (state lidar : List (List ℚ))
  deriving Repr, DecidableEq

/-- Per-agent feature row of the spline variant's `get_state` (lines
324-333): inverse clamped distance and normalized speed only. -/
def splineObsRow (a : Agent) (vLimit : ℚ) : List ℚ :=
  [1 / max |a.destX - a.posX| 1, a.speed / vLimit]

/-- `MultiAgentHighwaySplineAccelerationDiscreteModel.get_state`
(`highway.py` lines 317-351): returns the acceleration ratings on the
first read after reset (setting `got_spline_state`), else builds the
2-feature rows and processed lidar and pushes them through the history
queues exactly as the parent class does. -/
def splineGetState (e : HighwayEnv) (raw : List (List ℚ))
    (mask : List (List Bool)) : HighwayEnv × SplineObs :=
  if e.gotSplineState = false then
    ({ e with gotSplineState := true }, SplineObs.ratings e.acclnRating)
  else
    let rows := List.zipWith splineObsRow e.agents e.dynamics.vLim
    let lid := lidarProc e.lidarNoise raw mask
    if 1 < e.historyLen then
      let q1 := pushObs e.historyLen e.queue1 rows
      let q2 := pushObs e.historyLen e.queue2 lid
      ({ e with queue1 := q1, queue2 := q2 },
        SplineObs.regular
          ((List.range e.agents.length).map (histRead q1))
          ((List.range e.agents.length).map (histRead q2)))
    else (e, SplineObs.regular rows lid)

/-- Modelled from the spec: `BaseMultiAgentDrivingEnvironment.step` is not
under `src/`.  Per spec sections 2, 5 and 6 it resolves the action,
advances the physics through the active dynamics binding (the integrator
is an opaque external collaborator, so the post-physics agent states are
an input here), increments the elapsed-step counter `nsteps`, and reads
the new observation via `get_state` (which for the spline subclass is
`splineGetState`); it has no notion of the spline stage protocol and no
stage-related failure mode. -/
def baseStep (e : HighwayEnv) (agentsAfter : List Agent)
    (raw : List (List ℚ)) (mask : List (List Bool)) :
    HighwayEnv × SplineObs :=
  splineGetState { e with nsteps := e.nsteps + 1, agents := agentsAfter }
    raw mask

/-- `MultiAgentHighwaySplineAccelerationDiscreteModel.step` (`highway.py`
lines 353-393): `assert stage in [0, 1]` (an `AssertionError` is the
error case); stage 1 delegates to the base-class step with the current
dynamics binding, with no check that a stage-0 commitment happened;
stage 0 passes the offsets through the identity resolver, builds the
4-point path from the agents' current positions (`pos[0, 1]` supplies the
shared far-field y, an index error if there are no agents), rebinds the
dynamics to a `SplineModel` with velocity limit
`vel_rating * max_velocity`, and returns `get_state()` without advancing
time. -/
def splineStep (e : HighwayEnv) (stage : ℤ) (action : List ℚ)
    (raw : List (List ℚ)) (mask : List (List Bool))
    (agentsAfter : List Agent) :
    Except String (HighwayEnv × SplineObs) :=
  if stage = 0 ∨ stage = 1 then
    if stage = 1 then Except.ok (baseStep e agentsAfter raw mask)
    else
      match e.agents.head? with
      | none => Except.error "index 0 is out of bounds"
      | some a0 =>
          Except.ok (splineGetState
            { e with dynamics := (Dynamics.spline
                (stage0PathOf e.length e.width a0.posY e.agents
                  (discreteToContinuousActionsV2 action))
                (e.velRating.map fun v => v * e.maxVelocity)) }
            raw mask)
  else Except.error "assertion failed: stage in [0, 1]"

/-- `reset` of the spline variant (`highway.py` lines 395-397): clears the
first-read flag before delegating to the parent reset. -/
def resetSplineStage (e : HighwayEnv) : HighwayEnv :=
  { e with gotSplineState := false }

/-- Whether a staged step call returned normally rather than failing. -/
def stepSucceeds : Except String (HighwayEnv × SplineObs) → Bool
  | Except.ok _ => true
  | Except.error _ => false

lemma splineGetState_fields (e : HighwayEnv) (raw : List (List ℚ))
    (mask : List (List Bool)) :
    ((splineGetState e raw mask).1).dynamics = e.dynamics ∧
    ((splineGetState e raw mask).1).nsteps = e.nsteps := by
  rw [splineGetState]
  by_cases h1 : e.gotSplineState = false
  · simp [h1]
  · by_cases h2 : 1 < e.historyLen <;> simp [h1, h2]

lemma splineStep_zero (e : HighwayEnv) (action : List ℚ)
    (raw : List (List ℚ)) (mask : List (List Bool))
    (agentsAfter : List Agent) (a0 : Agent) (rest : List Agent)
    (hagents : e.agents = a0 :: rest) :
    splineStep e 0 action raw mask agentsAfter
      = Except.ok (splineGetState
          { e with dynamics := (Dynamics.spline
              (stage0PathOf e.length e.width a0.posY e.agents
                (discreteToContinuousActionsV2 action))
              (e.velRating.map fun v => v * e.maxVelocity)) }
          raw mask) := by
  rw [splineStep, if_pos (Or.inl rfl), if_neg (by decide : ¬(0 : ℤ) = 1)]
  rw [show e.agents.head? = some a0 from by rw [hagents]; rfl]

lemma splineStep_zero_result (e : HighwayEnv) (action : List ℚ)
    (raw : List (List ℚ)) (mask : List (List Bool))
    (agentsAfter : List Agent) (a0 : Agent) (rest : List Agent)
    (hagents : e.agents = a0 :: rest) :
    ∃ e' obs, splineStep e 0 action raw mask agentsAfter
        = Except.ok (e', obs) ∧
      e'.dynamics = (Dynamics.spline
        (stage0PathOf e.length e.width a0.posY e.agents
          (discreteToContinuousActionsV2 action))
        (e.velRating.map fun v => v * e.maxVelocity)) ∧
      e'.nsteps = e.nsteps := by
  have hstep := splineStep_zero e action raw mask agentsAfter a0 rest hagents
  refine ⟨_, _, hstep, ?_, ?_⟩
  · exact (splineGetState_fields _ raw mask).1
  · exact (splineGetState_fields _ raw mask).2

/-- A concrete freshly reset spline environment: one agent, the
episode-start bicycle binding from `store_dynamics` (velocity limit
`(3/4) * 16 = 12`), empty history queues, cleared `got_spline_state`
flag; no stage-0 call has been made yet in the episode. -/
def exEnv : HighwayEnv :=
  { length := 250, width := 25, maxVelocity := 16, maxAccln := 3,
    velRating := [3 / 4], acclnRating := [3 / 4],
    agents := [⟨-95, 0, 75, 0, 0⟩],
    dynamics := Dynamics.bicycle [448 / 100] [12],
    nsteps := 0, historyLen := 5, npoints := 360,
    queue1 := [], queue2 := [], gotSplineState := false, lidarNoise := 0 }

/-- C4 counterexample: on a freshly reset spline environment in which no
stage-0 call has ever been made (`got_spline_state` still false, the
dynamics still the episode-start bicycle binding), a stage-1 `step` call
succeeds instead of failing fast: the code contains no path-commitment
check. -/
theorem c4_counterexample :
    exEnv.gotSplineState = false ∧
    exEnv.dynamics = Dynamics.bicycle [448 / 100] [12] ∧
    stepSucceeds (splineStep exEnv 1 [0] [[1]] [[true]] exEnv.agents)
      = true :=
  ⟨rfl, rfl, rfl⟩

/-- C4 (amended): a stage value outside {0, 1} fails fast with the
assertion failure, but a stage-1 call made before any stage-0 commitment
is not checked: it succeeds, performing a normal base-environment step
against whatever dynamics binding is active (the episode-start bicycle
binding on a fresh episode), leaving the binding unchanged and advancing
`nsteps`. -/
theorem c4_stage_contract (e : HighwayEnv) (stage : ℤ) (action : List ℚ)
    (raw : List (List ℚ)) (mask : List (List Bool)) (ag : List Agent) :
    (stage ≠ 0 → stage ≠ 1 →
      splineStep e stage action raw mask ag
        = Except.error "assertion failed: stage in [0, 1]") ∧
    (splineStep e 1 action raw mask ag
        = Except.ok (baseStep e ag raw mask) ∧
      ((baseStep e ag raw mask).1).dynamics = e.dynamics ∧
      ((baseStep e ag raw mask).1).nsteps = e.nsteps + 1) := by
  constructor
  · intro h0 h1
    rw [splineStep, if_neg]
    rintro (rfl | rfl)
    · exact h0 rfl
    · exact h1 rfl
  · refine ⟨?_, ?_, ?_⟩
    · rw [splineStep, if_pos (Or.inr rfl), if_pos rfl]
    · exact (splineGetState_fields _ raw mask).1
    · exact (splineGetState_fields _ raw mask).2

theorem c4_stage_contract_witness :
    splineStep exEnv 5 [0] [[1]] [[true]] []
      = Except.error "assertion failed: stage in [0, 1]" :=
  (c4_stage_contract exEnv 5 [0] [[1]] [[true]] []).1 (by decide) (by decide)

/-- C6: on an environment carrying the episode-start bicycle binding
(whose velocity limit is `vel_rating * max_velocity` as installed by
`store_dynamics` at reset), a stage-0 call succeeds, rebinds the dynamics
to a newly built `SplineModel` over the 4-point path derived from the
agents' current positions and lateral offsets — a binding distinct from
the episode-start one — whose per-agent velocity limit is
`vel_rating * max_velocity`, identical to the episode-start binding's
limit; the call returns an observation and leaves `nsteps` unchanged. -/
theorem c6_stage0_rebinds (e : HighwayEnv) (action : List ℚ)
    (raw : List (List ℚ)) (mask : List (List Bool)) (ag : List Agent)
    (d : List ℚ) (a0 : Agent) (rest : List Agent)
    (hdyn : e.dynamics
      = Dynamics.bicycle d (e.velRating.map fun v => v * e.maxVelocity))
    (hagents : e.agents = a0 :: rest) :
    ∃ e' obs, splineStep e 0 action raw mask ag = Except.ok (e', obs) ∧
      e'.dynamics = (Dynamics.spline
        (stage0PathOf e.length e.width a0.posY e.agents
          (discreteToContinuousActionsV2 action))
        (e.velRating.map fun v => v * e.maxVelocity)) ∧
      e'.dynamics ≠ e.dynamics ∧
      (e'.dynamics).vLim = e.velRating.map (fun v => v * e.maxVelocity) ∧
      (e'.dynamics).vLim = (e.dynamics).vLim ∧
      e'.nsteps = e.nsteps := by
  obtain ⟨e', obs, hstep, hdyn', hn⟩ :=
    splineStep_zero_result e action raw mask ag a0 rest hagents
  refine ⟨e', obs, hstep, hdyn', ?_, ?_, ?_, hn⟩
  · rw [hdyn', hdyn]
    simp
  · rw [hdyn']
    rfl
  · rw [hdyn', hdyn]
    rfl

theorem c6_stage0_rebinds_witness :
    ∃ e' obs, splineStep exEnv 0 [1 / 2] [[1]] [[true]] []
        = Except.ok (e', obs) ∧
      e'.dynamics = (Dynamics.spline
        (stage0PathOf exEnv.length exEnv.width
          (Agent.mk (-95) 0 75 0 0).posY exEnv.agents
          (discreteToContinuousActionsV2 [1 / 2]))
        (exEnv.velRating.map fun v => v * exEnv.maxVelocity)) ∧
      e'.dynamics ≠ exEnv.dynamics ∧
      (e'.dynamics).vLim
        = exEnv.velRating.map (fun v => v * exEnv.maxVelocity) ∧
      (e'.dynamics).vLim = (exEnv.dynamics).vLim ∧
      e'.nsteps = exEnv.nsteps :=
  c6_stage0_rebinds exEnv [1 / 2] [[1]] [[true]] [] [448 / 100]
    (Agent.mk (-95) 0 75 0 0) [] (by norm_num [exEnv]) rfl

/-- A concrete two-agent spline environment whose agents sit at different
y-positions (0 and 10), to exhibit that the far-field anchor uses agent
index 0's y for every agent. -/
def exEnv2 : HighwayEnv :=
  { length := 250, width := 25, maxVelocity := 16, maxAccln := 3,
    velRating := [3 / 4, 1 / 2], acclnRating := [3 / 4, 1 / 2],
    agents := [⟨-95, 0, 75, 0, 0⟩, ⟨-85, 10, 75, 10, 0⟩],
    dynamics := Dynamics.bicycle [448 / 100, 448 / 100] [12, 8],
    nsteps := 0, historyLen := 5, npoints := 360,
    queue1 := [], queue2 := [], gotSplineState := false, lidarNoise := 0 }

/-- C10: the stage-0 call binds the path built by `stage0PathOf` with the
shared y-coordinate taken from agent index 0's position, and in that path
every agent's row is: own position; midpoint `(x + 50, y + offset *
width / 2)`; endpoint `(length / 2, same y as midpoint)`; far-field
anchor `(-length / 2, y0)` — the same `y0` for every agent, independent
of the agent's own y-position and offset. -/
theorem c10_farfield_anchor (e : HighwayEnv) (action : List ℚ)
    (raw : List (List ℚ)) (mask : List (List Bool)) (ag : List Agent)
    (a0 : Agent) (rest : List Agent) (hagents : e.agents = a0 :: rest) :
    (∃ e' obs, splineStep e 0 action raw mask ag = Except.ok (e', obs) ∧
      e'.dynamics = (Dynamics.spline
        (stage0PathOf e.length e.width a0.posY e.agents
          (discreteToContinuousActionsV2 action))
        (e.velRating.map fun v => v * e.maxVelocity))) ∧
    (∀ (L W y0 : ℚ) (agents : List Agent) (offsets : List ℚ) (i : ℕ)
      (hi : i < (agents.zip offsets).length),
      (stage0PathOf L W y0 agents offsets).get
          ⟨i, by simpa [stage0PathOf] using hi⟩
        = [(((agents.zip offsets).get ⟨i, hi⟩).1.posX,
            ((agents.zip offsets).get ⟨i, hi⟩).1.posY),
           (((agents.zip offsets).get ⟨i, hi⟩).1.posX + 50,
            ((agents.zip offsets).get ⟨i, hi⟩).1.posY
              + ((agents.zip offsets).get ⟨i, hi⟩).2 * W / 2),
           (L / 2,
            ((agents.zip offsets).get ⟨i, hi⟩).1.posY
              + ((agents.zip offsets).get ⟨i, hi⟩).2 * W / 2),
           (-(L / 2), y0)]) := by
  constructor
  · obtain ⟨e', obs, hstep, hdyn', _⟩ :=
      splineStep_zero_result e action raw mask ag a0 rest hagents
    exact ⟨e', obs, hstep, hdyn'⟩
  · intro L W y0 agents offsets i hi
    simp only [stage0PathOf, List.get_eq_getElem, List.getElem_map]
    rfl

theorem c10_farfield_anchor_witness :
    (stage0PathOf 250 25 0 exEnv2.agents [1 / 2, -(1 / 2)]).get
        ⟨1, by decide⟩
      = [(-85, 10), (-35, 15 / 4), (125, 15 / 4), (-125, 0)] := by
  have h := (c10_farfield_anchor exEnv2 [1 / 2, -(1 / 2)] [[1]] [[true]]
    [] (Agent.mk (-95) 0 75 0 0) [Agent.mk (-85) 10 75 10 0] rfl).2
    250 25 0 exEnv2.agents [1 / 2, -(1 / 2)] 1 (by decide)
  rw [h]
  norm_num [exEnv2]
